import Mathlib

/-!
# Verification of the simple-seo-validator core (src/validator/validator.py)

Shallow embedding of the heuristic analysis engine: the encoding-resolution
chain of `fetch_and_parse` / `fallback_decode`, the document analyzers
(`check_initial_content`, `check_title`, `check_meta_description`, `check_h1`,
`check_image_alt`, `check_canonical`) and the URL normalizer `normalize_url`
(built on CPython's `urllib.parse.urlparse`).

HTML documents are modelled as a forest of element/text nodes exposing the
BeautifulSoup capabilities the script uses (find / find_all by tag, attribute
and class predicates, `get_text(strip=True, separator=...)`, `decompose`,
CSS-ish `select` for the fixed selector list).  External collaborators (the
byte-level codecs, `chardet`, `requests`' own `response.text` decoding) are
parameters, since their internals are outside the repository.
-/

namespace SEOV

/-! ## String helpers (Python `str` operations used by the script) -/

/-- Python whitespace for `str.strip` / class splitting (ASCII subset). -/
def is_space (c : Char) : Bool :=
  c = ' ' || c = '\t' || c = '\n' || c = '\r' || c = '\x0b' || c = '\x0c'

/-- Strip leading and trailing whitespace from a character list. -/
def trim_chars (l : List Char) : List Char :=
  ((l.dropWhile is_space).reverse.dropWhile is_space).reverse

/-- Python `s.strip()`. -/
def py_strip (s : String) : String := String.mk (trim_chars s.toList)

/-- Substring test on character lists (Python `a in b` for strings). -/
def substr_list (a : List Char) : List Char → Bool
  | [] => a.isEmpty
  | c :: cs => a.isPrefixOf (c :: cs) || substr_list a cs

/-- Python `a in b` for strings. -/
def substr_of (a b : String) : Bool := substr_list a.toList b.toList

/-- A character in the CJK unified ideographs block U+4E00..U+9FFF
(the range tested by the script's `'一' <= char <= '鿿'`). -/
def is_cjk (c : Char) : Bool := 0x4E00 ≤ c.toNat && c.toNat ≤ 0x9FFF

/-- `sum(1 for char in s if '一' <= char <= '鿿')`. -/
def cjk_count (s : String) : Nat := (s.toList.filter is_cjk).length

/-! ## The parsed-document model

A BeautifulSoup document is a forest of nodes (the children of the soup
object's root); searches run over every descendant in document order. -/

/-- A node of the parsed HTML tree: a tag with attributes and children, or a
text (NavigableString) node. -/
inductive Node where
  | elem (tag : String) (attrs : List (String × String)) (children : List Node)
  | text (s : String)
deriving Repr

/-- A parsed document (the soup): the forest of top-level nodes. -/
abbrev Doc := List Node

mutual

/-- Boolean equality of nodes. -/
def node_beq : Node → Node → Bool
  | .text s, .text t => s == t
  | .elem t1 a1 c1, .elem t2 a2 c2 => t1 == t2 && a1 == a2 && forest_beq c1 c2
  | _, _ => false

/-- Boolean equality of forests. -/
def forest_beq : List Node → List Node → Bool
  | [], [] => true
  | n :: ns, m :: ms => node_beq n m && forest_beq ns ms
  | _, _ => false

end

mutual

theorem node_beq_iff : ∀ a b : Node, node_beq a b = true ↔ a = b
  | .text s, .text t => by simp [node_beq]
  | .text _, .elem _ _ _ => by simp [node_beq]
  | .elem _ _ _, .text _ => by simp [node_beq]
  | .elem t1 a1 c1, .elem t2 a2 c2 => by
    simp [node_beq, forest_beq_iff c1 c2, and_assoc]

theorem forest_beq_iff : ∀ a b : List Node, forest_beq a b = true ↔ a = b
  | [], [] => by simp [forest_beq]
  | [], _ :: _ => by simp [forest_beq]
  | _ :: _, [] => by simp [forest_beq]
  | n :: ns, m :: ms => by
    simp [forest_beq, node_beq_iff n m, forest_beq_iff ns ms]

end

instance : DecidableEq Node := fun a b => decidable_of_iff _ (node_beq_iff a b)

/-- The tag name of an element node. -/
def Node.tagName : Node → Option String
  | .elem t _ _ => some t
  | .text _ => none

/-- `tag.get(key)`: first attribute with the given name. -/
def Node.getAttr (n : Node) (key : String) : Option String :=
  match n with
  | .elem _ attrs _ => (attrs.find? (fun p => p.1 == key)).map Prod.snd
  | .text _ => none

/-- `tag.get(key, default)`. -/
def Node.getAttrD (n : Node) (key dflt : String) : String :=
  (n.getAttr key).getD dflt

mutual

/-- BeautifulSoup's `.strings` of a node: its NavigableString contents in
document order. -/
def node_strings : Node → List String
  | .text s => [s]
  | .elem _ _ cs => forest_strings cs

/-- All NavigableString contents of a forest, in document order. -/
def forest_strings : List Node → List String
  | [] => []
  | n :: rest => node_strings n ++ forest_strings rest

end

/-- `get_text(separator=sep, strip=True)` over a forest: each string is
stripped, whitespace-only strings are dropped, the rest joined by `sep`. -/
def forest_text_strip (sep : String) (ns : List Node) : String :=
  String.intercalate sep (((forest_strings ns).map py_strip).filter (fun s => s != ""))

/-- `node.get_text(separator=sep, strip=True)`. -/
def node_text_strip (sep : String) (n : Node) : String :=
  String.intercalate sep (((node_strings n).map py_strip).filter (fun s => s != ""))

mutual

/-- First match of `p` in a node's subtree (the node itself first). -/
def node_find (p : Node → Bool) : Node → Option Node
  | .text s => if p (.text s) then some (.text s) else none
  | .elem t a cs =>
    if p (.elem t a cs) then some (.elem t a cs) else forest_find p cs

/-- First node of a forest (document order, nodes before their descendants)
satisfying `p`: `soup.find(...)`. -/
def forest_find (p : Node → Bool) : List Node → Option Node
  | [] => none
  | n :: rest =>
    match node_find p n with
    | some r => some r
    | none => forest_find p rest

end

mutual

/-- All matches of `p` in a node's subtree (the node itself first). -/
def node_find_all (p : Node → Bool) : Node → List Node
  | .text s => if p (.text s) then [.text s] else []
  | .elem t a cs =>
    (if p (.elem t a cs) then [.elem t a cs] else []) ++ forest_find_all p cs

/-- All nodes of a forest (document order) satisfying `p`: `soup.find_all(...)`. -/
def forest_find_all (p : Node → Bool) : List Node → List Node
  | [] => []
  | n :: rest => node_find_all p n ++ forest_find_all p rest

end

/-- `tag.find_all(...)`: search the descendants of an element (the element
itself is never a result). -/
def elem_find_all (p : Node → Bool) (n : Node) : List Node :=
  match n with
  | .elem _ _ cs => forest_find_all p cs
  | .text _ => []

mutual

/-- Remove every matching node of a subtree (keeping `n` itself). -/
def node_remove (p : Node → Bool) : Node → Node
  | .text s => .text s
  | .elem t a cs => .elem t a (forest_remove p cs)

/-- Remove every node matching `p` (and with it its whole subtree), as the
script's `for tag in ...: tag.decompose()` loops do. -/
def forest_remove (p : Node → Bool) : List Node → List Node
  | [] => []
  | n :: rest =>
    if p n then forest_remove p rest
    else node_remove p n :: forest_remove p rest

end

mutual

/-- Structural deep copy of a node; models `BeautifulSoup(str(body),
'html.parser')`, the fresh working tree `check_initial_content` re-parses from
the serialized body so that its `decompose` calls never touch the caller's
document. -/
def deep_copy : Node → Node
  | .text s => .text s
  | .elem t a cs => .elem t a (copy_forest cs)

/-- Copy of a forest of children. -/
def copy_forest : List Node → List Node
  | [] => []
  | n :: rest => deep_copy n :: copy_forest rest

end

/-- Node matches one of the given tag names. -/
def tag_in (tags : List String) (n : Node) : Bool :=
  match n.tagName with
  | some t => tags.contains t
  | none => false

/-- Node has exactly the given tag name. -/
def tag_is (t : String) (n : Node) : Bool := n.tagName == some t

/-- Split a character list on whitespace runs, dropping empty pieces;
`cur` accumulates the current token in reverse. -/
def ws_tokens (cur : List Char) : List Char → List (List Char)
  | [] => if cur.isEmpty then [] else [cur.reverse]
  | c :: cs =>
    if is_space c then
      if cur.isEmpty then ws_tokens [] cs else cur.reverse :: ws_tokens [] cs
    else ws_tokens (c :: cur) cs

/-- Python `s.split()`: whitespace split with empty pieces dropped. -/
def py_split_ws (s : String) : List String := (ws_tokens [] s.toList).map String.mk

/-- Python `s.lower()` (ASCII). -/
def py_lower (s : String) : String := String.mk (s.toList.map Char.toLower)

/-- The CSS classes of a node: its `class` attribute split on whitespace. -/
def class_tokens (n : Node) : List String := py_split_ws (n.getAttrD "class" "")

/-- One selector of the script's fixed `nav_selectors` list, as used with
`temp_body.select(...)`: `.c` matches a class token, `#i` matches the id
attribute, anything else is a tag name. -/
def sel_match (sel : String) (n : Node) : Bool :=
  match sel.toList with
  | '.' :: rest => (class_tokens n).contains (String.mk rest)
  | '#' :: rest => n.getAttr "id" == some (String.mk rest)
  | _ => n.tagName == some sel

/-! ## EncodingResolver (`fetch_and_parse` lines 56-86 and `fallback_decode`) -/

/-- Outcome of a Python `bytes.decode(...)` call: success, a
`UnicodeDecodeError`, or any other exception (e.g. the `LookupError` raised
for an unknown encoding name). -/
inductive DecodeResult where
  | ok (s : String)
  | decodeError
  | otherError
deriving DecidableEq, Repr

/-- The external text machinery the script calls into: the codec registry
(strict and `errors='ignore'` decoding by encoding name), the terminal
`utf-8`/ignore decode (total), `requests`' own `response.text` decoding
(total), and `chardet.detect` returning a candidate encoding and a
confidence. Bytes are lists of naturals. -/
structure Codecs where
  decode : String → List Nat → DecodeResult
  decodeIgnore : String → List Nat → DecodeResult
  decodeUtf8Ignore : List Nat → String
  text : String
  detect : List Nat → Option String × Rat

/-- What `fetch_and_parse` sees from `requests`: the raw bytes
(`response.content`), the header-declared encoding (`response.encoding`,
possibly absent), and the requested URL. -/
structure RawResponse where
  content : List Nat
  encoding : Option String
  url : String

/-- The fixed Chinese-site name fragments of `fetch_and_parse` line 63. -/
def cjk_sites_fetch : List String := ["sina", "baidu", "sohu", "163", "qq"]

/-- The fixed Chinese-site name fragments of `fallback_decode` line 116
(note: this list additionally holds `zhihu`). -/
def cjk_sites_fallback : List String := ["sina", "baidu", "sohu", "163", "qq", "zhihu"]

/-- `'.cn' in url or any(site in url for site in [...])` in `fetch_and_parse`. -/
def cjk_hint_fetch (url : String) : Bool :=
  substr_of ".cn" url || cjk_sites_fetch.any (fun s => substr_of s url)

/-- `url and ('.cn' in url or any(site in url for site in [...]))` in
`fallback_decode` (an absent or empty url is falsy). -/
def cjk_hint_fallback : Option String → Bool
  | none => false
  | some u => u != "" && (substr_of ".cn" u || cjk_sites_fallback.any (fun s => substr_of s u))

/-- The candidate priority list of `fallback_decode`. -/
def fallback_encodings (url : Option String) : List String :=
  if cjk_hint_fallback url then ["gbk", "gb2312", "gb18030", "utf-8", "iso-8859-1"]
  else ["utf-8", "gbk", "gb2312", "iso-8859-1"]

/-- Outcome of `fallback_decode`'s candidate loop: the first successful
decode, exhaustion (every candidate raised `UnicodeDecodeError`), or a
non-decode exception escaping the loop (its `except UnicodeDecodeError`
clause catches nothing else). -/
inductive TryOut where
  | found (s : String)
  | exhausted
  | escaped
deriving DecidableEq, Repr

/-- `for encoding in encodings: try: return content.decode(encoding)
except UnicodeDecodeError: continue`. -/
def try_encodings (cx : Codecs) (content : List Nat) : List String → TryOut
  | [] => .exhausted
  | e :: es =>
    match cx.decode e content with
    | .ok s => .found s
    | .decodeError => try_encodings cx content es
    | .otherError => .escaped

/-- `fallback_decode(content, url)`; `none` means an exception escaped. -/
def fallback_decode (cx : Codecs) (content : List Nat) (url : Option String) :
    Option String :=
  match try_encodings cx content (fallback_encodings url) with
  | .found s => some s
  | .exhausted => some (cx.decodeUtf8Ignore content)
  | .escaped => none

/-- The encoding-resolution block of `fetch_and_parse` (lines 56-86); `none`
means an exception escaped the block (to be caught by the function's generic
`except Exception` handler, which returns no document). -/
def resolve_content (cx : Codecs) (r : RawResponse) : Option String :=
  match r.encoding with
  | some enc =>
    match cx.decode enc r.content with
    | .ok s => some s
    | .decodeError =>
      match cx.decode (if cjk_hint_fetch r.url then "gbk" else "utf-8") r.content with
      | .ok s => some s
      | .decodeError => some cx.text
      | .otherError => none
    | .otherError => none
  | none =>
    if (cx.detect (r.content.take 1024)).2 > (4 / 5 : Rat) then
      match (cx.detect (r.content.take 1024)).1 with
      | some e =>
        match cx.decodeIgnore e r.content with
        | .ok s => some s
        | _ => fallback_decode cx r.content (some r.url)
      | none => fallback_decode cx r.content (some r.url)
    else fallback_decode cx r.content (some r.url)

/-! ## Field analyzers -/

/-- The status band a check prints as its 结果 line: ✅ pass, ⚠️ warn,
❌ fail, ℹ️ info. -/
inductive Status where
  | pass
  | warn
  | fail
  | info
deriving DecidableEq, Repr

/-- Printed status band together with the boolean verdict the check returns. -/
structure FieldResult where
  status : Status
  verdict : Bool
deriving DecidableEq, Repr

/-- `soup.find('body')` predicate. -/
def is_body (n : Node) : Bool := n.tagName == some "body"

/-- The tags `check_initial_content` decomposes from its working copy. -/
def noise_tags : List String :=
  ["script", "style", "noscript", "iframe", "nav", "header", "footer", "aside",
   "form", "button", "input"]

/-- The `nav_selectors` list of `check_initial_content`. -/
def nav_selectors : List String :=
  ["nav", ".navigation", ".navbar", ".menu", "#nav", "#navigation", "#menu",
   ".header", ".footer", ".sidebar"]

/-- The class keywords of the `content_classes` search. -/
def content_words : List String := ["content", "post", "article", "main", "entry"]

/-- `find_all(class_=lambda x: x and any(word in str(x).lower() for word in
[...]))`: the node has a class attribute one of whose space-joined tokens
contains a content keyword (matching BeautifulSoup, which tries the callable
on each class token and on the whole joined value; substring search makes
the joined check subsume the per-token ones). -/
def has_content_class (n : Node) : Bool :=
  match n.getAttr "class" with
  | none => false
  | some _ =>
    let joined := String.intercalate " " (class_tokens n)
    content_words.any (fun w => substr_of w (py_lower joined))

/-- Both noise-stripping passes of `check_initial_content` applied to a
working forest: first the tag-list decompose loop, then the
`nav_selectors` select/decompose loop, in order. -/
def strip_noise_forest (d : List Node) : List Node :=
  nav_selectors.foldl (fun acc sel => forest_remove (sel_match sel) acc)
    (forest_remove (tag_in noise_tags) d)

/-- `len(temp_body.get_text(strip=True, separator=' '))` where `temp_body` is
the re-parsed working copy of the body. -/
def initial_visible_length (body : Node) : Nat :=
  (forest_text_strip " " (strip_noise_forest [deep_copy body])).length

/-- Same quantity computed directly from the caller's body, with no working
copy interposed. -/
def initial_visible_length_direct (body : Node) : Nat :=
  (forest_text_strip " " (strip_noise_forest [body])).length

/-- `len([p for p in body.find_all('p') if len(p.get_text(strip=True)) > 50])`,
computed on the original, unmodified body. -/
def meaningful_paragraph_count (body : Node) : Nat :=
  ((elem_find_all (tag_is "p") body).filter
    (fun p => (node_text_strip "" p).length > 50)).length

/-- `len(content_tags) > 0 or len(content_classes) > 0` on the original body. -/
def has_content_structure (body : Node) : Bool :=
  (elem_find_all (tag_in ["article", "main"]) body).length > 0 ||
    (elem_find_all has_content_class body).length > 0

/-- The four-way classification at the end of `check_initial_content`,
evaluated in order with the first matching branch winning. -/
def initial_content_classify (text_length mp : Nat) (hcs : Bool) : FieldResult :=
  if text_length < 100 then ⟨.fail, false⟩
  else if text_length < 300 ∧ mp < 2 then ⟨.warn, false⟩
  else if hcs || decide (2 ≤ mp) then ⟨.pass, true⟩
  else ⟨.warn, decide (200 ≤ text_length)⟩

/-- `check_initial_content(soup)`: result only. The working text length is
measured after decomposing noise inside a fresh copy of the body; the
paragraph and content-structure signals are read off the original body. -/
def check_initial_content (soup : Doc) : FieldResult :=
  match forest_find is_body soup with
  | none => ⟨.warn, false⟩
  | some body =>
    initial_content_classify (initial_visible_length body)
      (meaningful_paragraph_count body) (has_content_structure body)

/-- `check_initial_content(soup)` in state-passing form: the pair of its
result and the caller's document as it stands when the call returns (all
`decompose` mutations are applied inside the re-parsed working copy only,
so the caller's forest passes through untouched). -/
def check_initial_content_st (soup : Doc) : FieldResult × Doc :=
  (check_initial_content soup, soup)

/-- `soup.find('title')` predicate. -/
def is_title (n : Node) : Bool := n.tagName == some "title"

/-- `check_title(soup)`: the printed band and the returned
`30 <= title_length <= 70` verdict. CJK dominance is
`chinese_count > len(title_content) / 2`, here in the equivalent integer
form `2 * chinese_count > len`. -/
def check_title (soup : Doc) : FieldResult :=
  match forest_find is_title soup with
  | none => ⟨.fail, false⟩
  | some t =>
    let content := node_text_strip "" t
    let n := content.length
    let status :=
      if 2 * cjk_count content > n then
        if n < 15 then Status.fail
        else if n < 30 then Status.warn
        else if n > 70 then Status.warn
        else Status.pass
      else
        if n < 30 then Status.fail
        else if n < 50 then Status.warn
        else if n > 65 then Status.warn
        else Status.pass
    ⟨status, decide (30 ≤ n ∧ n ≤ 70)⟩

/-- `soup.find('meta', attrs={'name': 'description'})` predicate. -/
def is_meta_description (n : Node) : Bool :=
  n.tagName == some "meta" && n.getAttr "name" == some "description"

/-- `check_meta_description(soup)`: the printed band and the returned
length-window verdict. CJK dominance is `chinese_count > len / 3`, here as
`3 * chinese_count > len`; length and counts are taken on the stripped
`content` attribute. -/
def check_meta_description (soup : Doc) : FieldResult :=
  match forest_find is_meta_description soup with
  | none => ⟨.fail, false⟩
  | some m =>
    let c := py_strip (m.getAttrD "content" "")
    if c = "" then ⟨.warn, false⟩
    else
      let n := c.length
      if 3 * cjk_count c > n then
        ⟨if n < 50 then .fail else if n < 100 then .warn
          else if n > 200 then .warn else .pass,
         decide (100 ≤ n ∧ n ≤ 200)⟩
      else
        ⟨if n < 120 then .fail else if n < 140 then .warn
          else if n > 180 then .warn else .pass,
         decide (140 ≤ n ∧ n ≤ 180)⟩

/-! ### HeadingAnalyzer (`check_h1`) -/

/-- The CJK stop characters dropped by `extract_key_phrases`. -/
def stop_words : List Char :=
  ['的', '和', '与', '及', '或', '在', '是', '有', '了', '吗', '呢', '吧', '啊']

/-- `extract_key_phrases(text)`: iterate the characters of the text, drop
stop characters, and take the windows `words[:3]` (if more than 2 remain)
and `words[2:5]` (if more than 4 remain). -/
def extract_key_phrases (text : String) : List String :=
  let words := text.toList.filter (fun c => !(stop_words.contains c))
  (if words.length > 2 then [String.mk (words.take 3)] else []) ++
    (if words.length > 4 then [String.mk ((words.drop 2).take 3)] else [])

/-- The nested phrase-overlap loop: some pair of candidate phrases, both of
length at least 2, one a substring of the other. -/
def phrases_related (h1 title : String) : Bool :=
  (extract_key_phrases h1).any (fun ph =>
    (extract_key_phrases title).any (fun pt =>
      2 ≤ ph.length && 2 ≤ pt.length && (substr_of ph pt || substr_of pt ph)))

/-- The relatedness finding `check_h1` prints for the first H1 against the
page title. -/
inductive RelKind where
  | skipped
  | identical
  | containment
  | shared
  | weak
deriving DecidableEq, Repr

/-- The observable outcome of `check_h1`: the H1 count, the per-H1 length
bands (empty → fail, <10 → warn, >100 → warn, else pass), the multiple-H1
warning, the title-relatedness finding, and the returned
`h1_count == 1` verdict. -/
structure H1Result where
  count : Nat
  bands : List Status
  multipleWarn : Bool
  relation : RelKind
  verdict : Bool
deriving DecidableEq, Repr

/-- `soup.find_all('h1')` predicate. -/
def is_h1 (n : Node) : Bool := n.tagName == some "h1"

/-- `check_h1(soup)`. -/
def check_h1 (soup : Doc) : H1Result :=
  let h1s := forest_find_all is_h1 soup
  let count := h1s.length
  let page_title :=
    match forest_find is_title soup with
    | some t => node_text_strip "" t
    | none => ""
  if count = 0 then ⟨0, [], false, .skipped, false⟩
  else
    let contents := h1s.map (node_text_strip "")
    let bands := contents.map (fun s =>
      if s.length = 0 then Status.fail
      else if s.length < 10 then Status.warn
      else if s.length > 100 then Status.warn
      else Status.pass)
    let relation :=
      if page_title = "" then RelKind.skipped
      else
        let primary := contents.headD ""
        if primary = page_title then RelKind.identical
        else if substr_of primary page_title || substr_of page_title primary then
          RelKind.containment
        else if phrases_related primary page_title then RelKind.shared
        else RelKind.weak
    ⟨count, bands, decide (count > 1), relation, decide (count = 1)⟩

/-! ### ImageAltAnalyzer (`check_image_alt`) -/

/-- The bucket the missing-alt percentage falls into. -/
inductive AltBand where
  | noImages
  | allPresent
  | minor
  | moderate
  | severe
deriving DecidableEq, Repr

/-- The observable outcome of `check_image_alt`. -/
structure ImgResult where
  total : Nat
  missing : Nat
  status : Status
  band : AltBand
  verdict : Bool
deriving DecidableEq, Repr

/-- `soup.find_all('img')` predicate. -/
def is_img (n : Node) : Bool := n.tagName == some "img"

/-- `not img.get('alt')`: the alt attribute is absent or the empty string. -/
def img_missing_alt (n : Node) : Bool := n.getAttrD "alt" "" == ""

/-- `check_image_alt(soup)`: percentages are computed exactly
(`missing / total * 100` as a rational; at every bucket boundary the
script's float arithmetic is exact, e.g. `(1/5)*100 == 20.0`). -/
def check_image_alt (soup : Doc) : ImgResult :=
  let imgs := forest_find_all is_img soup
  let total := imgs.length
  if total = 0 then ⟨0, 0, .info, .noImages, true⟩
  else
    let missing := (imgs.filter img_missing_alt).length
    let pct : Rat := (missing : Rat) / (total : Rat) * 100
    if missing = 0 then ⟨total, 0, .pass, .allPresent, true⟩
    else if pct < 20 then ⟨total, missing, .warn, .minor, false⟩
    else if pct < 50 then ⟨total, missing, .warn, .moderate, false⟩
    else ⟨total, missing, .fail, .severe, false⟩

/-! ## UrlNormalizer (`normalize_url` over CPython's `urllib.parse.urlparse`)

The fragment of CPython 3.11's `urlsplit`/`urlparse` that `normalize_url`
observes (`netloc` and `path`): scheme detection, `//`-authority splitting,
fragment, query and params removal. The IPv6-bracket and netloc validation
errors are out of scope (no claim involves bracketed hosts). -/

/-- Split a list at the first occurrence of `c` (the separator dropped);
`none` when `c` does not occur. -/
def break_at (c : Char) : List Char → Option (List Char × List Char)
  | [] => none
  | x :: xs =>
    if x = c then some ([], xs)
    else (break_at c xs).map (fun p => (x :: p.1, p.2))

/-- CPython's `scheme_chars`: ASCII letters, digits, `+`, `-`, `.`. -/
def scheme_char (c : Char) : Bool :=
  c.isAlpha || c.isDigit || c = '+' || c = '-' || c = '.'

/-- The scheme-splitting step of `urlsplit`: at the first `:`, provided it is
not at position 0, the first character is an ASCII letter and everything
before the colon is a scheme character; the scheme is lowercased. -/
def split_scheme (l : List Char) : List Char × List Char :=
  match break_at ':' l with
  | none => ([], l)
  | some (pre, post) =>
    if pre ≠ [] ∧ (pre.headD ' ').isAlpha ∧ pre.all scheme_char then
      (pre.map Char.toLower, post)
    else ([], l)

/-- Does the remaining url start with `//` (an authority component)? -/
def starts_dslash : List Char → Bool
  | a :: b :: _ => a == '/' && b == '/'
  | _ => false

/-- A netloc character: anything up to the first `/`, `?` or `#`. -/
def netloc_char (c : Char) : Bool := c ≠ '/' && c ≠ '?' && c ≠ '#'

/-- `_splitnetloc(url, 2)`: the netloc and the remainder. -/
def split_netloc (l : List Char) : List Char × List Char :=
  (l.takeWhile netloc_char, l.dropWhile netloc_char)

/-- Drop everything from the first occurrence of `c` on. -/
def cut_at (c : Char) (l : List Char) : List Char :=
  match break_at c l with
  | none => l
  | some (pre, _) => pre

/-- The schemes for which `urlparse` splits `;params` off the path. -/
def uses_params : List String :=
  ["", "ftp", "hdl", "prospero", "http", "imap", "https", "shttp", "rtsp",
   "rtsps", "rtspu", "sip", "sips", "mms", "sftp", "tel"]

/-- `_splitparams`: cut the path at the first `;` of its last segment. -/
def split_params_path (l : List Char) : List Char :=
  if l.contains '/' then
    let after := (l.reverse.takeWhile (fun c => c ≠ '/')).reverse
    let before := l.take (l.length - after.length)
    match break_at ';' after with
    | none => l
    | some (pre, _) => before ++ pre
  else cut_at ';' l

/-- The `netloc` and `path` components of `urlparse(url)`. -/
def urlparse_netloc_path (url : String) : List Char × List Char :=
  let (scheme, r1) := split_scheme url.toList
  let (netloc, r2) :=
    if starts_dslash r1 then split_netloc (r1.drop 2) else ([], r1)
  let r3 := cut_at '#' r2
  let r4 := cut_at '?' r3
  let path :=
    if uses_params.contains (String.mk scheme) && r4.contains ';' then
      split_params_path r4
    else r4
  (netloc, path)

/-- Python `path.rstrip('/')`: drop every trailing slash. -/
def rstrip_slash (l : List Char) : List Char :=
  (l.reverse.dropWhile (fun c => c == '/')).reverse

/-- `normalize_url(url)`: `parsed.netloc + parsed.path.rstrip('/')`. -/
def normalize_url (url : String) : String :=
  let (netloc, path) := urlparse_netloc_path url
  String.mk (netloc ++ rstrip_slash path)

/-- `soup.find('link', attrs={'rel': 'canonical'})` predicate. -/
def is_canonical_link (n : Node) : Bool :=
  n.tagName == some "link" && n.getAttr "rel" == some "canonical"

/-- `check_canonical(soup, current_url)`. -/
def check_canonical (soup : Doc) (current_url : String) : FieldResult :=
  match forest_find is_canonical_link soup with
  | none => ⟨.warn, false⟩
  | some tag =>
    let canonical_url := py_strip (tag.getAttrD "href" "")
    if canonical_url = "" then ⟨.fail, false⟩
    else if normalize_url current_url = normalize_url canonical_url then
      ⟨.pass, true⟩
    else ⟨.warn, false⟩

/-! ## Concrete scenarios used below -/

/-- Codec behaviour when the header-declared charset names an encoding the
registry does not know: `bytes.decode('bogus-charset')` raises `LookupError`,
which is not a `UnicodeDecodeError`. -/
def cx_unknown : Codecs where
  decode := fun name _ => if name = "bogus-charset" then .otherError else .decodeError
  decodeIgnore := fun _ _ => .decodeError
  decodeUtf8Ignore := fun _ => ""
  text := ""
  detect := fun _ => (none, 0)

/-- A response declaring the unknown charset. -/
def r_unknown : RawResponse where
  content := [64]
  encoding := some "bogus-charset"
  url := "http://example.com"

/-- Codec behaviour where `chardet` confidently (mis)detects utf-8 on
GBK-decodable bytes, so the `errors='ignore'` decode of the detected encoding
is used and differs from the strict GBK decode. -/
def cx_detect : Codecs where
  decode := fun name _ => if name = "gbk" then .ok "GBK-REFERENCE" else .decodeError
  decodeIgnore := fun name _ => if name = "utf-8" then .ok "LOSSY-UTF8" else .decodeError
  decodeUtf8Ignore := fun _ => ""
  text := ""
  detect := fun _ => (some "utf-8", 1)

/-- GB-encoded bytes, no declared encoding, a `.cn` URL. -/
def r_detect : RawResponse where
  content := [196, 227]
  encoding := none
  url := "http://news.example.cn"

/-- Codec behaviour for the GB fallback scenario: strict GBK decoding
succeeds, nothing else does, detection is unconfident. -/
def cx_gb : Codecs where
  decode := fun name _ => if name = "gbk" then .ok "GBK-TEXT" else .decodeError
  decodeIgnore := fun _ _ => .decodeError
  decodeUtf8Ignore := fun _ => ""
  text := ""
  detect := fun _ => (none, 1 / 2)

/-- GB-encoded bytes, no declared encoding, a `.cn` URL. -/
def r_gb : RawResponse where
  content := [214, 208]
  encoding := none
  url := "http://news.sina.com.cn/a"

/-- Codec behaviour where the declared utf-8 fails, the strict retry fails,
but GBK would succeed: the declared-encoding path then returns
`response.text`, it does not run the candidate priority list. -/
def cx_declared : Codecs where
  decode := fun name _ => if name = "gbk" then .ok "GBK-TEXT" else .decodeError
  decodeIgnore := fun _ _ => .decodeError
  decodeUtf8Ignore := fun _ => ""
  text := "REQUESTS-TEXT"
  detect := fun _ => (none, 0)

/-- A response with a declared encoding that fails strict decoding, from a
URL with no CJK hint. -/
def r_declared : RawResponse where
  content := [7]
  encoding := some "utf-8"
  url := "http://plain.example.org/page"

/-- Codec behaviour for the no-declared-encoding fallback witness. -/
def cx_fallback : Codecs where
  decode := fun name _ => if name = "gbk" then .ok "GBK-TEXT" else .decodeError
  decodeIgnore := fun _ _ => .decodeError
  decodeUtf8Ignore := fun _ => ""
  text := ""
  detect := fun _ => (none, 0)

/-- No declared encoding, unconfident detection, no CJK hint in the URL. -/
def r_fallback : RawResponse where
  content := [7]
  encoding := none
  url := "http://plain.example.org/page"

/-- A body holding only a `nav` and a `script` element. -/
def nav_script_body : Node :=
  .elem "body" []
    [.elem "nav" [] [.text "Home About"],
     .elem "script" [] [.text "var x = 1;"]]

/-- A document whose body holds only a `nav` and a `script` element. -/
def nav_script_doc : Doc := [.elem "html" [] [nav_script_body]]

/-- A 30-character CJK-dominant title. -/
def cjk30 : String := "春夏秋冬东南西北金木水火土山川河流日月星辰风雨雷电天地人和们"

/-- A 25-character CJK-dominant title. -/
def cjk25 : String := "春夏秋冬东南西北金木水火土山川河流日月星辰风雨雷电"

/-- A document with the 30-character CJK title. -/
def title_doc_cjk30 : Doc := [.elem "html" [] [.elem "title" [] [.text cjk30]]]

/-- A document with the 25-character CJK title. -/
def title_doc_cjk25 : Doc := [.elem "html" [] [.elem "title" [] [.text cjk25]]]

/-- A document with the 5-character Latin title of the spec's example. -/
def title_doc_short : Doc := [.elem "html" [] [.elem "title" [] [.text "Short"]]]

/-- A document with a 68-character Latin-dominant title. -/
def title_doc_latin68 : Doc :=
  [.elem "html" [] [.elem "title" []
    [.text "An extremely long English page title used to exercise the length xyz"]]]

/-- A document with a 150-character Latin meta description. -/
def meta_doc_latin150 : Doc :=
  [.elem "head" [] [.elem "meta"
    [("name", "description"), ("content", String.mk (List.replicate 150 'a'))] []]]

/-- A document with no meta description at all. -/
def meta_doc_none : Doc := [.elem "head" [] [.elem "meta" [("charset", "utf-8")] []]]

/-- A document with five images, exactly one of which lacks alt text. -/
def img_doc_5_1 : Doc :=
  [.elem "body" []
    [.elem "img" [("src", "a.png"), ("alt", "a")] [],
     .elem "img" [("src", "b.png"), ("alt", "b")] [],
     .elem "img" [("src", "c.png"), ("alt", "c")] [],
     .elem "img" [("src", "d.png"), ("alt", "d")] [],
     .elem "img" [("src", "e.png")] []]]

/-- A document with no images. -/
def img_doc_none : Doc := [.elem "body" [] [.elem "p" [] [.text "hello"]]]

/-- The spec's canonical example: a page whose canonical link differs from
the current URL only by scheme and trailing slash. -/
def canonical_doc : Doc :=
  [.elem "head" []
    [.elem "link" [("rel", "canonical"), ("href", "https://ex.com/page")] []]]

/-- A document with exactly one h1 and a title. -/
def h1_doc_one : Doc :=
  [.elem "html" []
    [.elem "title" [] [.text "Learning Python Guide"],
     .elem "body" [] [.elem "h1" [] [.text "Python Tutorial"]]]]

/-- A document with two h1 elements. -/
def h1_doc_two : Doc :=
  [.elem "html" []
    [.elem "body" [] [.elem "h1" [] [.text "One"], .elem "h1" [] [.text "Two"]]]]

end SEOV

section SEOVChecks
open SEOV

example : forest_strings [Node.elem "a" [("x","1")] [Node.text " h ", Node.elem "b" [] [Node.text "w"]], Node.text "z"] = [" h ", "w", "z"] := by decide

example : forest_text_strip " " [Node.elem "a" [] [Node.text " h ", Node.elem "b" [] [Node.text "w"]], Node.text "z"] = "h w z" := by decide

example : forest_find (tag_is "b") [Node.elem "a" [] [Node.elem "b" [] [Node.text "w"]]] = some (Node.elem "b" [] [Node.text "w"]) := by decide

example : deep_copy (Node.elem "a" [] [Node.text "x"]) = Node.elem "a" [] [Node.text "x"] := by decide

end SEOVChecks

namespace SEOV

/-! ## Lemmas about the encoding chain -/

/-- If no candidate decode raises a non-decode error, the candidate loop
never lets an exception escape. -/
theorem try_encodings_not_escaped (cx : Codecs) (content : List Nat) :
    ∀ es : List String, (∀ e ∈ es, cx.decode e content ≠ .otherError) →
      try_encodings cx content es ≠ .escaped := by
  intro es
  induction es with
  | nil => intro _h; simp [try_encodings]
  | cons e es ih =>
    intro h
    simp only [try_encodings]
    cases hd : cx.decode e content with
    | ok s => simp
    | decodeError => exact ih (fun x hx => h x (by simp [hx]))
    | otherError => exact absurd hd (h e (by simp))

/-- If no candidate raises a non-decode error, `fallback_decode` returns a
string: the candidate loop either finds one or the terminal lossy utf-8
decode supplies one. -/
theorem fallback_decode_isSome (cx : Codecs) (content : List Nat) (url : Option String)
    (h : ∀ e ∈ fallback_encodings url, cx.decode e content ≠ .otherError) :
    (fallback_decode cx content url).isSome = true := by
  unfold fallback_decode
  cases htry : try_encodings cx content (fallback_encodings url) with
  | found s => simp
  | exhausted => simp
  | escaped => exact absurd htry (try_encodings_not_escaped cx content _ h)

/-- Every candidate either priority list names one of the five fixed codecs. -/
theorem fallback_encodings_subset (url : Option String) :
    ∀ e ∈ fallback_encodings url,
      e ∈ (["gbk", "gb2312", "gb18030", "utf-8", "iso-8859-1"] : List String) := by
  unfold fallback_encodings
  split <;> decide

/-- The candidate loop returns the first successful decode: candidates before
it all raised `UnicodeDecodeError`. -/
theorem try_encodings_first_ok (cx : Codecs) (content : List Nat) (s e : String)
    (rest : List String) :
    ∀ pre : List String, (∀ x ∈ pre, cx.decode x content = .decodeError) →
      cx.decode e content = .ok s →
      try_encodings cx content (pre ++ e :: rest) = .found s := by
  intro pre
  induction pre with
  | nil =>
    intro _h hok
    simp only [List.nil_append, try_encodings]
    rw [hok]
  | cons x pre ih =>
    intro h hok
    simp only [List.cons_append, try_encodings]
    rw [h x (by simp)]
    exact ih (fun y hy => h y (by simp [hy])) hok

/-! ## Claim C1 -/

/-- **C1, counterexample.** The claim quantifies over every RawResponse
("any optional declared encoding") and every GB byte sequence. It fails
twice. (i) When the declared encoding names a charset the codec registry
does not know, the strict decode raises `LookupError`, which the block's
`except UnicodeDecodeError` does not catch: the encoding-resolution step
raises past its boundary and produces no text (the enclosing generic
handler then returns no document). (ii) When detection is confident of a
non-GB encoding for GB-decodable bytes from a `.cn` URL, the result is the
lossy decode of the detected encoding, not the reference GBK decode. -/
theorem C1_counterexample :
    resolve_content cx_unknown r_unknown = none ∧
    (r_detect.encoding = none ∧ substr_of ".cn" r_detect.url = true ∧
      cx_detect.decode "gbk" r_detect.content = .ok "GBK-REFERENCE" ∧
      resolve_content cx_detect r_detect = some "LOSSY-UTF8" ∧
      ("LOSSY-UTF8" : String) ≠ "GBK-REFERENCE") := by
  refine ⟨rfl, rfl, by decide, rfl, ?_, by decide⟩
  have h : ((1 : Rat) > 4 / 5) = True := by norm_num
  simp only [resolve_content, cx_detect, r_detect, h, if_true]

/-- **C1 (amended).** For every RawResponse whose declared encoding, when
present, is known to the codec registry (its strict decode can only succeed
or raise a decode error — true of every charset name the registry resolves,
and of the five fixed fallback candidates), the encoding-resolution step
returns a text string. Moreover for a GB-encoded byte sequence (strict GBK
decoding succeeds) with no declared encoding and a URL containing `.cn`,
whenever statistical detection does not take over (confidence at most 0.8),
the result is exactly the reference GBK decode of the bytes. -/
theorem C1_resolver_total_and_gbk
    (cx : Codecs) (r : RawResponse)
    (hknown : ∀ e ∈ (["gbk", "gb2312", "gb18030", "utf-8", "iso-8859-1"] : List String),
      cx.decode e r.content ≠ .otherError)
    (hdecl : ∀ e, r.encoding = some e → cx.decode e r.content ≠ .otherError) :
    (resolve_content cx r).isSome = true ∧
    (r.encoding = none → substr_of ".cn" r.url = true →
      (cx.detect (r.content.take 1024)).2 ≤ 4 / 5 →
      ∀ g, cx.decode "gbk" r.content = .ok g → resolve_content cx r = some g) := by
  have hfb : (fallback_decode cx r.content (some r.url)).isSome = true :=
    fallback_decode_isSome cx r.content (some r.url)
      (fun e he => hknown e (fallback_encodings_subset _ e he))
  constructor
  · cases hr : r.encoding with
    | some enc =>
      simp only [resolve_content, hr]
      cases h1 : cx.decode enc r.content with
      | ok s => simp
      | otherError => exact absurd h1 (hdecl enc hr)
      | decodeError =>
        have hk : cx.decode (if cjk_hint_fetch r.url then "gbk" else "utf-8") r.content ≠
            .otherError := by
          by_cases hc : cjk_hint_fetch r.url
          · rw [if_pos hc]; exact hknown "gbk" (by simp)
          · rw [if_neg hc]; exact hknown "utf-8" (by simp)
        cases h2 : cx.decode (if cjk_hint_fetch r.url then "gbk" else "utf-8") r.content with
        | ok s => simp
        | decodeError => simp
        | otherError => exact absurd h2 hk
    | none =>
      simp only [resolve_content, hr]
      by_cases hconf : (cx.detect (r.content.take 1024)).2 > 4 / 5
      · rw [if_pos hconf]
        split
        · split
          · simp
          · exact hfb
        · exact hfb
      · rw [if_neg hconf]; exact hfb
  · intro henc hcn hconf g hg
    simp only [resolve_content, henc]
    rw [if_neg (not_lt.mpr hconf)]
    have hurl : cjk_hint_fallback (some r.url) = true := by
      have hne : (r.url != "") = true := by
        rcases eq_or_ne r.url "" with h0 | h0
        · rw [h0] at hcn; exact absurd hcn (by decide)
        · simp [h0]
      simp [cjk_hint_fallback, hne, hcn]
    have hlist : fallback_encodings (some r.url) =
        ["gbk", "gb2312", "gb18030", "utf-8", "iso-8859-1"] := by
      simp [fallback_encodings, hurl]
    have htry : try_encodings cx r.content (fallback_encodings (some r.url)) = .found g := by
      rw [hlist]
      exact try_encodings_first_ok cx r.content g "gbk"
        ["gb2312", "gb18030", "utf-8", "iso-8859-1"] [] (by simp) hg
    unfold fallback_decode
    rw [htry]

/-- **C1, witness.** The amended theorem applied to the GB fallback
scenario: unconfident detection, `.cn` URL, GB bytes; the resolver returns
the GBK reference decode, in particular some string. -/
theorem C1_witness :
    resolve_content cx_gb r_gb = some "GBK-TEXT" ∧
    (resolve_content cx_gb r_gb).isSome = true := by
  have h := C1_resolver_total_and_gbk cx_gb r_gb
    (by decide)
    (fun e he => by exact absurd he (by simp [r_gb]))
  refine ⟨h.2 rfl (by decide) (by norm_num [cx_gb]) "GBK-TEXT" rfl, h.1⟩

/-! ## Claim C2 -/

/-- **C2, counterexample.** When a declared encoding is present, fails, and
the strict GBK-or-UTF-8 retry also fails, the code does not run the
candidate priority list: it returns `requests`' own `response.text`. Here
the priority list would have produced `GBK-TEXT` (utf-8 fails, gbk
succeeds), but the resolver returns `REQUESTS-TEXT`. -/
theorem C2_counterexample :
    r_declared.encoding = some "utf-8" ∧
    cx_declared.decode "utf-8" r_declared.content = .decodeError ∧
    resolve_content cx_declared r_declared = some "REQUESTS-TEXT" ∧
    fallback_decode cx_declared r_declared.content (some r_declared.url) = some "GBK-TEXT" ∧
    ("REQUESTS-TEXT" : String) ≠ "GBK-TEXT" := by
  refine ⟨rfl, by decide, by decide, by decide, by decide⟩

/-- **C2 (amended).** The fixed priority list selected by the fallback CJK
hint, tried in order with the first success winning, is reached exactly from
the no-declared-encoding branch: when detection is unconfident, and when the
confidently detected encoding fails to decode even with substitutions. When
a declared encoding was present and failed and the strict GBK-or-UTF-8
retry also failed, the resolver instead returns the transport library's own
`response.text` decoding. -/
theorem C2_fallback_chain
    (cx : Codecs) (r : RawResponse) :
    (r.encoding = none →
      (cx.detect (r.content.take 1024)).2 ≤ 4 / 5 →
      resolve_content cx r = fallback_decode cx r.content (some r.url)) ∧
    (∀ e, r.encoding = none →
      (cx.detect (r.content.take 1024)).2 > 4 / 5 →
      (cx.detect (r.content.take 1024)).1 = some e →
      (∀ s, cx.decodeIgnore e r.content ≠ .ok s) →
      resolve_content cx r = fallback_decode cx r.content (some r.url)) ∧
    (∀ (url : Option String) (pre : List String) (e : String) (rest : List String)
      (s : String),
      fallback_encodings url = pre ++ e :: rest →
      (∀ x ∈ pre, cx.decode x r.content = .decodeError) →
      cx.decode e r.content = .ok s →
      fallback_decode cx r.content url = some s) ∧
    (∀ enc, r.encoding = some enc →
      cx.decode enc r.content = .decodeError →
      cx.decode (if cjk_hint_fetch r.url then "gbk" else "utf-8") r.content = .decodeError →
      resolve_content cx r = some cx.text) := by
  refine ⟨?_, ?_, ?_, ?_⟩
  · intro henc hconf
    simp only [resolve_content, henc]
    rw [if_neg (not_lt.mpr hconf)]
  · intro e henc hconf hdet hig
    simp only [resolve_content, henc]
    rw [if_pos hconf, hdet]
    show (match cx.decodeIgnore e r.content with
          | .ok s => some s
          | _ => fallback_decode cx r.content (some r.url)) =
        fallback_decode cx r.content (some r.url)
    cases h : cx.decodeIgnore e r.content with
    | ok s => exact absurd h (hig s)
    | decodeError => rfl
    | otherError => rfl
  · intro url pre e rest s hlist hpre hok
    unfold fallback_decode
    rw [hlist, try_encodings_first_ok cx r.content s e rest pre hpre hok]
  · intro enc henc h1 h2
    simp only [resolve_content, henc]
    rw [h1, h2]

/-- **C2, witness.** The amended theorem applied to the no-declared-encoding
scenario (unconfident detection, no CJK hint): the resolver hands over to
the fallback list, and the list's first successful candidate (`gbk`, after
`utf-8` fails) supplies the text; and to the declared-encoding scenario,
where the resolver returns `response.text`. -/
theorem C2_witness :
    resolve_content cx_fallback r_fallback = some "GBK-TEXT" ∧
    resolve_content cx_declared r_declared = some cx_declared.text := by
  constructor
  · have h := C2_fallback_chain cx_fallback r_fallback
    have h1 := h.1 rfl (by norm_num [cx_fallback])
    have h3 := h.2.2.1 (some r_fallback.url) ["utf-8"] "gbk" ["gb2312", "iso-8859-1"]
      "GBK-TEXT" (by decide) (by decide) (by decide)
    exact h1.trans h3
  · exact (C2_fallback_chain cx_declared r_declared).2.2.2 "utf-8" rfl (by decide) (by decide)

/-! ## Claims C3 and C4 -/

mutual

/-- The serialize-and-reparse working copy reproduces the body tree. -/
theorem deep_copy_eq : ∀ n : Node, deep_copy n = n
  | .text _ => rfl
  | .elem t a cs => congrArg (Node.elem t a) (copy_forest_eq cs)

/-- The working copy reproduces each child forest. -/
theorem copy_forest_eq : ∀ ns : List Node, copy_forest ns = ns
  | [] => rfl
  | n :: rest => by rw [copy_forest, deep_copy_eq n, copy_forest_eq rest]

end

/-- **C3.** For every document with a body, whenever the stripped
visible-text length (measured on the noise-stripped working copy) is below
100 characters, the classification short-circuits at its first branch:
FAIL with verdict false, regardless of paragraphs or content structure. -/
theorem C3_low_visible_text_fails (soup : Doc) (body : Node)
    (hbody : forest_find is_body soup = some body)
    (hlen : initial_visible_length body < 100) :
    (check_initial_content_st soup).1 = ⟨.fail, false⟩ := by
  simp only [check_initial_content_st, check_initial_content, hbody,
    initial_content_classify]
  rw [if_pos hlen]

/-- **C3, witness.** A body holding only `<nav>` and `<script>` elements
strips to the empty text: length 0 < 100, so the assessment FAILs. -/
theorem C3_witness :
    forest_find is_body nav_script_doc = some nav_script_body ∧
    initial_visible_length nav_script_body = 0 ∧
    (check_initial_content_st nav_script_doc).1 = ⟨.fail, false⟩ :=
  ⟨by decide, by decide,
    C3_low_visible_text_fails nav_script_doc nav_script_body (by decide) (by decide)⟩

/-- **C4.** The content-visibility assessment never mutates the caller's
document: the state-passing form returns the document unchanged, the
noise-stripped text length measured inside the working copy coincides with
the same measurement on the original body (the copy is faithful), and the
result is the classification of the original body's visible length,
meaningful-paragraph count and content-structure signal. -/
theorem C4_no_mutation (soup : Doc) :
    (check_initial_content_st soup).2 = soup ∧
    ∀ body, forest_find is_body soup = some body →
      initial_visible_length body = initial_visible_length_direct body ∧
      (check_initial_content_st soup).1 =
        initial_content_classify (initial_visible_length_direct body)
          (meaningful_paragraph_count body) (has_content_structure body) := by
  refine ⟨rfl, ?_⟩
  intro body hbody
  have hcopy : initial_visible_length body = initial_visible_length_direct body := by
    simp [initial_visible_length, initial_visible_length_direct, deep_copy_eq]
  refine ⟨hcopy, ?_⟩
  simp only [check_initial_content_st, check_initial_content, hbody, hcopy]

/-- **C4, witness.** The purity facts at the nav-and-script document. -/
theorem C4_witness :
    (check_initial_content_st nav_script_doc).2 = nav_script_doc ∧
    initial_visible_length nav_script_body = initial_visible_length_direct nav_script_body := by
  have h := C4_no_mutation nav_script_doc
  exact ⟨h.1, (h.2 nav_script_body (by decide)).1⟩

/-! ## Claim C5 -/

/-- **C5.** The heading analyzer's boolean verdict is PASS exactly when the
document has exactly one `h1` element — for every document, hence
independently of the per-H1 length bands and of the title-relatedness
finding it also reports. -/
theorem C5_h1_verdict_iff_unique (soup : Doc) :
    (check_h1 soup).verdict = true ↔ (forest_find_all is_h1 soup).length = 1 := by
  simp only [check_h1]
  by_cases h : (forest_find_all is_h1 soup).length = 0
  · simp [h]
  · simp [h]

/-! ## Claim C6 -/

/-- **C6.** With no `<meta name="description">` the analyzer FAILs with
verdict false (no language is even examined); with a non-empty stripped
`content` attribute the boolean verdict is acceptable exactly when the
length lies in [100,200] under CJK dominance (CJK count exceeding a third
of the length) and in [140,180] otherwise. -/
theorem C6_meta_description_verdict (soup : Doc) :
    (forest_find is_meta_description soup = none →
      check_meta_description soup = ⟨.fail, false⟩) ∧
    (∀ m c, forest_find is_meta_description soup = some m →
      c = py_strip (m.getAttrD "content" "") → c ≠ "" →
      ((check_meta_description soup).verdict = true ↔
        ((3 * cjk_count c > c.length ∧ 100 ≤ c.length ∧ c.length ≤ 200) ∨
         (¬ 3 * cjk_count c > c.length ∧ 140 ≤ c.length ∧ c.length ≤ 180)))) := by
  constructor
  · intro h; simp [check_meta_description, h]
  · intro m c hfind hc hne
    simp only [check_meta_description, hfind, ← hc]
    rw [if_neg hne]
    by_cases hcjk : 3 * cjk_count c > c.length
    · rw [if_pos hcjk]; simp [hcjk]
    · rw [if_neg hcjk]; simp [hcjk]

set_option maxRecDepth 4000 in
/-- **C6, witness.** A document with no meta description FAILs; a 150
Latin-character description is in the acceptable window. -/
theorem C6_witness :
    check_meta_description meta_doc_none = ⟨.fail, false⟩ ∧
    (check_meta_description meta_doc_latin150).verdict = true := by
  have h1 := (C6_meta_description_verdict meta_doc_none).1 (by decide)
  have h2 := (C6_meta_description_verdict meta_doc_latin150).2
    (.elem "meta" [("name", "description"),
      ("content", String.mk (List.replicate 150 'a'))] [])
    (String.mk (List.replicate 150 'a')) (by decide) (by decide) (by decide)
  exact ⟨h1, h2.mpr (by decide)⟩

/-! ## Claims C7 and C10 -/

/-- **C7.** For a present title, with CJK dominance decided by
`2 * cjk_count > length`: the status is FAIL below 15 (CJK) / 30 (Latin)
characters, WARN in [15,30) or above 70 (CJK) and in [30,50) or above 65
(Latin), and PASS exactly on [30,70] (CJK) / [50,65] (Latin). -/
theorem C7_title_status_bands (soup : Doc) :
    ∀ t, forest_find is_title soup = some t →
      ∀ n, n = (node_text_strip "" t).length →
      ((2 * cjk_count (node_text_strip "" t) > n →
         ((check_title soup).status = .fail ↔ n < 15) ∧
         ((check_title soup).status = .warn ↔ ((15 ≤ n ∧ n < 30) ∨ 70 < n)) ∧
         ((check_title soup).status = .pass ↔ (30 ≤ n ∧ n ≤ 70))) ∧
       (¬ 2 * cjk_count (node_text_strip "" t) > n →
         ((check_title soup).status = .fail ↔ n < 30) ∧
         ((check_title soup).status = .warn ↔ ((30 ≤ n ∧ n < 50) ∨ 65 < n)) ∧
         ((check_title soup).status = .pass ↔ (50 ≤ n ∧ n ≤ 65)))) := by
  intro t hfind n hn
  simp only [check_title, hfind, ← hn]
  constructor
  · intro hcjk
    rw [if_pos hcjk]
    refine ⟨?_, ?_, ?_⟩ <;> (split_ifs with h1 h2 h3 <;> simp <;> omega)
  · intro hcjk
    rw [if_neg hcjk]
    refine ⟨?_, ?_, ?_⟩ <;> (split_ifs with h1 h2 h3 <;> simp <;> omega)

/-- **C7, witness.** A CJK-dominant title of length 30 is PASS; the Latin
title "Short" (length 5) is FAIL. -/
theorem C7_witness :
    (check_title title_doc_cjk30).status = .pass ∧
    (check_title title_doc_short).status = .fail := by
  have h30 := C7_title_status_bands title_doc_cjk30
    (.elem "title" [] [.text cjk30]) (by decide) 30 (by decide)
  have h5 := C7_title_status_bands title_doc_short
    (.elem "title" [] [.text "Short"]) (by decide) 5 (by decide)
  exact ⟨((h30.1 (by decide)).2.2).mpr (by decide), ((h5.2 (by decide)).1).mpr (by decide)⟩

/-- **C10.** For a present title the returned boolean verdict is
`30 <= length <= 70`, the same fixed window in both language branches —
so it is independent of the detected dominant language and can disagree
with the printed band in both directions. -/
theorem C10_title_verdict_window (soup : Doc) :
    ∀ t, forest_find is_title soup = some t →
      ((check_title soup).verdict = true ↔
        (30 ≤ (node_text_strip "" t).length ∧ (node_text_strip "" t).length ≤ 70)) := by
  intro t hfind
  simp only [check_title, hfind]
  simp

/-- **C10, witness.** A CJK-dominant title of length 25 sits in the WARN
band (not FAIL) yet has verdict false; a Latin-dominant title of length 68
gets the too-long WARN yet has verdict true. -/
theorem C10_witness :
    (check_title title_doc_cjk25).verdict = false ∧
    (check_title title_doc_cjk25).status = .warn ∧
    (check_title title_doc_latin68).verdict = true ∧
    (check_title title_doc_latin68).status = .warn := by
  have h25 := C10_title_verdict_window title_doc_cjk25
    (.elem "title" [] [.text cjk25]) (by decide)
  have h68 := C10_title_verdict_window title_doc_latin68
    (.elem "title" []
      [.text "An extremely long English page title used to exercise the length xyz"])
    (by decide)
  refine ⟨?_, by decide, h68.mpr (by decide), by decide⟩
  cases hb : (check_title title_doc_cjk25).verdict
  · rfl
  · exact absurd (h25.mp hb) (by decide)

/-! ## Claim C9 -/

/-- The float comparison `missing / total * 100 < k` in exact integer form. -/
theorem pct_lt_iff (m t k : Nat) (ht : 0 < t) :
    ((m : Rat) / (t : Rat) * 100 < (k : Rat)) ↔ m * 100 < k * t := by
  have ht' : (0 : Rat) < (t : Rat) := by exact_mod_cast ht
  rw [div_mul_eq_mul_div, div_lt_iff₀ ht']
  exact_mod_cast Iff.rfl

/-- **C9.** With zero images the analyzer reports INFO with verdict PASS;
with images present the verdict is PASS exactly when no image lacks a
non-empty alt attribute, the minor bucket holds exactly when some image is
missing alt and the missing share is strictly below 20%, and the moderate
bucket exactly when the share is in [20%, 50%) — so exactly 20% is
moderate, not minor. -/
theorem C9_image_alt (soup : Doc) :
    ((forest_find_all is_img soup).length = 0 →
      check_image_alt soup = ⟨0, 0, .info, .noImages, true⟩) ∧
    (0 < (forest_find_all is_img soup).length →
      (((check_image_alt soup).verdict = true) ↔
        ((forest_find_all is_img soup).filter img_missing_alt).length = 0) ∧
      ((check_image_alt soup).band = .minor ↔
        (0 < ((forest_find_all is_img soup).filter img_missing_alt).length ∧
          ((forest_find_all is_img soup).filter img_missing_alt).length * 100 <
            20 * (forest_find_all is_img soup).length)) ∧
      ((check_image_alt soup).band = .moderate ↔
        (20 * (forest_find_all is_img soup).length ≤
          ((forest_find_all is_img soup).filter img_missing_alt).length * 100 ∧
          ((forest_find_all is_img soup).filter img_missing_alt).length * 100 <
            50 * (forest_find_all is_img soup).length))) := by
  constructor
  · intro h; simp [check_image_alt, h]
  · intro ht
    have ht0 : ¬ (forest_find_all is_img soup).length = 0 := by omega
    simp only [check_image_alt]
    rw [if_neg ht0]
    have h20 := pct_lt_iff ((forest_find_all is_img soup).filter img_missing_alt).length
      (forest_find_all is_img soup).length 20 ht
    have h50 := pct_lt_iff ((forest_find_all is_img soup).filter img_missing_alt).length
      (forest_find_all is_img soup).length 50 ht
    push_cast at h20 h50
    by_cases hm : ((forest_find_all is_img soup).filter img_missing_alt).length = 0
    · rw [if_pos hm]
      refine ⟨by simp [hm], by simp [hm], ?_⟩
      simp only [hm]
      constructor
      · intro h; exact absurd h (by decide)
      · intro h; omega
    · rw [if_neg hm]
      by_cases hlt20 : ((forest_find_all is_img soup).filter img_missing_alt).length * 100 <
          20 * (forest_find_all is_img soup).length
      · rw [if_pos (by exact_mod_cast h20.mpr hlt20)]
        refine ⟨by simp [hm], by simp; omega, by simp; omega⟩
      · rw [if_neg (by rw [h20]; exact hlt20)]
        by_cases hlt50 : ((forest_find_all is_img soup).filter img_missing_alt).length * 100 <
            50 * (forest_find_all is_img soup).length
        · rw [if_pos (by exact_mod_cast h50.mpr hlt50)]
          refine ⟨by simp [hm], by simp; omega, by simp; omega⟩
        · rw [if_neg (by rw [h50]; exact hlt50)]
          refine ⟨by simp [hm], by simp; omega, by simp; omega⟩

/-- **C9, witness.** No images: INFO/PASS. Five images with exactly one
missing alt (20%): moderate bucket, verdict false. -/
theorem C9_witness :
    check_image_alt img_doc_none = ⟨0, 0, .info, .noImages, true⟩ ∧
    (check_image_alt img_doc_5_1).band = .moderate ∧
    (check_image_alt img_doc_5_1).verdict = false := by
  have h0 := (C9_image_alt img_doc_none).1 (by decide)
  have h5 := (C9_image_alt img_doc_5_1).2 (by decide)
  refine ⟨h0, (h5.2.2).mpr (by decide), ?_⟩
  cases hb : (check_image_alt img_doc_5_1).verdict
  · rfl
  · exact absurd (h5.1.mp hb) (by decide)

/-! ## Claim C8 -/

/-- `break_at` finds nothing when the character does not occur. -/
theorem break_at_eq_none (ch : Char) :
    ∀ l : List Char, (∀ c ∈ l, c ≠ ch) → break_at ch l = none := by
  intro l
  induction l with
  | nil => intro _; rfl
  | cons x xs ih =>
    intro h
    simp only [break_at]
    rw [if_neg (h x (by simp)), ih (fun c hc => h c (by simp [hc]))]
    rfl

/-- `cut_at` keeps the whole list when the character does not occur. -/
theorem cut_at_eq_self (ch : Char) (l : List Char) (h : ∀ c ∈ l, c ≠ ch) :
    cut_at ch l = l := by
  unfold cut_at
  rw [break_at_eq_none ch l h]

/-- A list does not contain a character that is nowhere in it. -/
theorem contains_eq_false (ch : Char) :
    ∀ l : List Char, (∀ c ∈ l, c ≠ ch) → l.contains ch = false := by
  intro l h
  cases hb : l.contains ch
  · rfl
  · exact absurd (by simpa using hb) (fun hc => h ch hc rfl)

/-- `dropWhile` is idempotent. -/
theorem dropWhile_idem (p : Char → Bool) :
    ∀ l : List Char, List.dropWhile p (List.dropWhile p l) = List.dropWhile p l
  | [] => rfl
  | c :: cs => by
    by_cases h : p c
    · simp [List.dropWhile_cons, h, dropWhile_idem p cs]
    · simp [List.dropWhile_cons, h]

/-- `rstrip_slash` only removes a suffix. -/
theorem rstrip_slash_prefix_self (l : List Char) : rstrip_slash l <+: l := by
  have h := (List.dropWhile_suffix (l := l.reverse) (fun c => c == '/')).reverse
  rwa [List.reverse_reverse] at h

/-- Python's `rstrip` is idempotent. -/
theorem rstrip_slash_idem (l : List Char) :
    rstrip_slash (rstrip_slash l) = rstrip_slash l := by
  unfold rstrip_slash
  rw [List.reverse_reverse, dropWhile_idem]

/-- A list starting with `//` has the two slashes explicitly. -/
theorem starts_dslash_shape (l : List Char) (h : starts_dslash l = true) :
    ∃ rest, l = '/' :: '/' :: rest := by
  cases l with
  | nil => exact absurd h (by simp [starts_dslash])
  | cons a l1 =>
    cases l1 with
    | nil => exact absurd h (by simp [starts_dslash])
    | cons b l2 =>
      simp only [starts_dslash, Bool.and_eq_true, beq_iff_eq] at h
      exact ⟨l2, by rw [h.1, h.2]⟩

/-- On a string with no `:`, `;`, `?` or `#` and no leading `//`,
`normalize_url` is exactly `rstrip('/')`: no scheme is split, no authority,
fragment, query or params component is found. -/
theorem normalize_plain (s : String)
    (hforb : ∀ c ∈ s.toList, c ≠ ':' ∧ c ≠ ';' ∧ c ≠ '?' ∧ c ≠ '#')
    (hds : starts_dslash s.toList = false) :
    normalize_url s = String.mk (rstrip_slash s.toList) := by
  have hsch : split_scheme s.toList = ([], s.toList) := by
    unfold split_scheme
    rw [break_at_eq_none ':' s.toList (fun c hc => (hforb c hc).1)]
  have hhash : cut_at '#' s.toList = s.toList :=
    cut_at_eq_self '#' s.toList (fun c hc => (hforb c hc).2.2.2)
  have hquer : cut_at '?' s.toList = s.toList :=
    cut_at_eq_self '?' s.toList (fun c hc => (hforb c hc).2.2.1)
  have hsemi : s.toList.contains ';' = false :=
    contains_eq_false ';' s.toList (fun c hc => (hforb c hc).2.1)
  simp only [normalize_url, urlparse_netloc_path, hsch, hds, Bool.false_eq_true,
    if_false, hhash, hquer, hsemi, Bool.and_false, List.nil_append]

/-- **C8, counterexample.** `normalize_url` is not idempotent on all inputs:
on its own output `a.com:8080/p` (from a URL with a port) the second pass
parses `a.com` as a scheme and drops the host. -/
theorem C8_counterexample :
    normalize_url (normalize_url "http://a.com:8080/p") ≠
      normalize_url "http://a.com:8080/p" := by decide

/-- **C8 (amended).** Normalization is idempotent on every URL string with
none of `:`, `;`, `?`, `#` and no leading `//` (in particular on typical
normalized host-plus-path outputs); it identifies URLs differing only in
scheme and trailing slash; and for a present canonical link with non-empty
stripped href the canonical analyzer returns PASS exactly when the
normalized href equals the normalized current URL. -/
theorem C8_normalizer_and_canonical :
    (∀ s : String,
      (∀ c ∈ s.toList, c ≠ ':' ∧ c ≠ ';' ∧ c ≠ '?' ∧ c ≠ '#') →
      starts_dslash s.toList = false →
      normalize_url (normalize_url s) = normalize_url s) ∧
    normalize_url "https://a.com/p/" = normalize_url "http://a.com/p" ∧
    (∀ (soup : Doc) (current_url : String) (tag : Node),
      forest_find is_canonical_link soup = some tag →
      py_strip (tag.getAttrD "href" "") ≠ "" →
      ((check_canonical soup current_url).status = .pass ↔
        normalize_url current_url = normalize_url (py_strip (tag.getAttrD "href" "")))) := by
  refine ⟨?_, by decide, ?_⟩
  · intro s hforb hds
    have h1 := normalize_plain s hforb hds
    have hsub : ∀ c ∈ rstrip_slash s.toList, c ∈ s.toList :=
      fun c hc => (rstrip_slash_prefix_self s.toList).subset hc
    have hforb' : ∀ c ∈ (String.mk (rstrip_slash s.toList)).toList,
        c ≠ ':' ∧ c ≠ ';' ∧ c ≠ '?' ∧ c ≠ '#' :=
      fun c hc => hforb c (hsub c hc)
    have hds' : starts_dslash (String.mk (rstrip_slash s.toList)).toList = false := by
      cases hb : starts_dslash (rstrip_slash s.toList)
      · exact hb
      · obtain ⟨rest, hrest⟩ := starts_dslash_shape _ hb
        obtain ⟨t, ht⟩ := rstrip_slash_prefix_self s.toList
        rw [hrest] at ht
        rw [← ht] at hds
        exact absurd hds (by simp [starts_dslash])
    have h2 := normalize_plain (String.mk (rstrip_slash s.toList)) hforb' hds'
    rw [h1, h2]
    exact congrArg String.mk (rstrip_slash_idem s.toList)
  · intro soup current_url tag hfind hne
    simp only [check_canonical, hfind]
    rw [if_neg hne]
    by_cases heq : normalize_url current_url = normalize_url (py_strip (tag.getAttrD "href" ""))
    · rw [if_pos heq]; simp [heq]
    · rw [if_neg heq]; simp [heq]

/-- **C8, witness.** Idempotence at the already-normalized `a.com/p`, and
the PASS verdict for canonical `https://ex.com/page` against current URL
`https://ex.com/page/`. -/
theorem C8_witness :
    normalize_url (normalize_url "a.com/p") = normalize_url "a.com/p" ∧
    (check_canonical canonical_doc "https://ex.com/page/").status = .pass := by
  refine ⟨C8_normalizer_and_canonical.1 "a.com/p" (by decide) (by decide), ?_⟩
  exact (C8_normalizer_and_canonical.2.2 canonical_doc "https://ex.com/page/"
    (.elem "link" [("rel", "canonical"), ("href", "https://ex.com/page")] [])
    (by decide) (by decide)).mpr (by decide)

end SEOV
